import Mathlib

/-!
Shallow embedding of the FreeScout polling coordinator
(`custom_components/freescout/coordinator.py`, constants from `const.py`).

The HTTP layer is modelled by an `Env` oracle mapping each request the
coordinator can issue to its response: a connection-level failure
(`transportErr`, aiohttp's `ClientError`), a non-2xx response (`httpErr`,
`ClientResponseError` from `raise_for_status`, or a response with
`resp.ok = False`), or a successful JSON body.  Optional JSON fields are
`Option`s, mirroring Python's `dict.get` defaults.  The paginated folder
loop takes explicit fuel and returns `none` when the fuel is exhausted,
so non-termination of the `while True` loop is observable as `none`.
-/

namespace Freescout

/-- A folder object from `GET /api/mailboxes/{id}/folders`.  The code reads
`f.get("type")`, `f["name"]` and `f.get("activeCount", 0)`, so `type` and
`activeCount` are optional while `name` is a plain field. -/
structure Folder where
  ftype : Option Int
  name : String
  activeCount : Option Int
deriving DecidableEq, Repr

/-- A conversation object from `GET /api/conversations`.  `assignee` holds the
id of the assignee object when the conversation has a truthy assignee with an
id, else `none` (the code evaluates
`conv.get("assignee", {}).get("id") if conv.get("assignee") else None`). -/
structure Conversation where
  id : Int
  subject : Option String
  status : Option String
  mailboxId : Option Int
  assignee : Option Int
  createdAt : Option String
  preview : Option String
deriving DecidableEq, Repr

/-- Payload of one `freescout_new_conversation` event. -/
structure NewConversationEvent where
  conversationId : Int
  subject : String
  status : String
  mailboxId : Option Int
  assigneeId : Option Int
  createdAt : String
  preview : String
deriving DecidableEq, Repr

/-- Errors raised by a fetch: `transport` is aiohttp's `ClientError`
(connection-level), `api` is `ClientResponseError` (non-2xx status). -/
inductive FetchError where
  | transport (msg : String)
  | api (status : Nat) (msg : String)
deriving DecidableEq, Repr

/-- The `UpdateFailed` classification produced by `_async_update_data`:
`ClientResponseError` maps to the "FreeScout API error" message, any other
`ClientError` to the "Could not connect" message. -/
inductive CycleFailure where
  | apiError (status : Nat) (msg : String)
  | connectError (msg : String)
deriving DecidableEq, Repr

def classifyFailure : FetchError → CycleFailure
  | .transport m => .connectError m
  | .api s m => .apiError s m

/-- Outcome of one HTTP request as seen by the coordinator. -/
inductive HttpResult (α : Type) where
  | transportErr (msg : String)
  | httpErr (status : Nat) (msg : String)
  | ok (a : α)

/-- One page of the folder listing: the `_embedded.folders` list and the
optional `page.totalPages` field. -/
structure FolderPage where
  folders : List Folder
  totalPages : Option Nat
deriving DecidableEq

/-- Parameters of a `GET /api/conversations` count query (`perPage=1`). -/
structure CountQuery where
  status : String
  assignedTo : Option Int
  mailboxId : Option Int
deriving DecidableEq, Repr

/-- The HTTP oracle: responses for the mailbox list, each folder page
(by mailbox id and page number), each count query (the value is the optional
`page.totalElements` field), and each recent-conversations query (by the
optional `mailboxId` parameter). -/
structure Env where
  mailboxesResp : HttpResult (List Int)
  folderResp : Int → Nat → HttpResult FolderPage
  countResp : CountQuery → HttpResult (Option Int)
  recentResp : Option Int → HttpResult (List Conversation)

/-- The engine configuration relevant to a cycle: `agent_id` (0 = disabled)
and the mailbox filter (empty = all mailboxes). -/
structure Config where
  agentId : Int
  mailboxIds : List Int
deriving DecidableEq, Repr

/-- One entry of `self.custom_folders` (a `name`/`key` dict). -/
structure CustomFolderEntry where
  name : String
  key : String
deriving DecidableEq, Repr

/-- Mutable engine state: `self._known_ids`, `self._first_refresh`,
`self.custom_folders`. -/
structure EngineState where
  knownIds : Finset Int
  firstRefresh : Bool
  customFolders : List CustomFolderEntry
deriving DecidableEq

/-- The state set up by `FreescoutCoordinator.__init__`. -/
def initState : EngineState := ⟨∅, true, []⟩

instance {ε α : Type} [DecidableEq ε] [DecidableEq α] : DecidableEq (Except ε α) := fun a b =>
  match a, b with
  | .error e, .error f =>
    if h : e = f then isTrue (congrArg Except.error h)
    else isFalse fun hc => h (Except.error.inj hc)
  | .error _, .ok _ => isFalse fun hc => Except.noConfusion hc
  | .ok _, .error _ => isFalse fun hc => Except.noConfusion hc
  | .ok x, .ok y =>
    if h : x = y then isTrue (congrArg Except.ok h)
    else isFalse fun hc => h (Except.ok.inj hc)

instance {α : Type} [DecidableEq α] : DecidableEq (HttpResult α) := fun a b =>
  match a, b with
  | .transportErr m, .transportErr m' =>
    if h : m = m' then isTrue (congrArg HttpResult.transportErr h)
    else isFalse fun hc => h (HttpResult.transportErr.inj hc)
  | .httpErr s m, .httpErr s' m' =>
    if h : s = s' ∧ m = m' then isTrue (by rw [h.1, h.2])
    else isFalse fun hc => h ⟨(HttpResult.httpErr.inj hc).1, (HttpResult.httpErr.inj hc).2⟩
  | .ok x, .ok y =>
    if h : x = y then isTrue (congrArg HttpResult.ok h)
    else isFalse fun hc => h (HttpResult.ok.inj hc)
  | .transportErr _, .httpErr _ _ => isFalse fun hc => HttpResult.noConfusion hc
  | .transportErr _, .ok _ => isFalse fun hc => HttpResult.noConfusion hc
  | .httpErr _ _, .transportErr _ => isFalse fun hc => HttpResult.noConfusion hc
  | .httpErr _ _, .ok _ => isFalse fun hc => HttpResult.noConfusion hc
  | .ok _, .transportErr _ => isFalse fun hc => HttpResult.noConfusion hc
  | .ok _, .httpErr _ _ => isFalse fun hc => HttpResult.noConfusion hc

/-- `_fetch_all_mailbox_ids`: a non-2xx response yields `[]` (soft), a
connection failure raises. -/
def fetchAllMailboxIds (env : Env) : Except FetchError (List Int) :=
  match env.mailboxesResp with
  | .transportErr m => .error (.transport m)
  | .httpErr _ _ => .ok []
  | .ok ids => .ok ids

/-- The `while True` page loop of `_fetch_all_folders_for_mailbox`, with fuel.
Returns the list of requested page numbers together with the accumulated
folders.  A non-2xx response breaks the loop (the failing page contributes no
folders); a connection failure raises; the loop stops after the page whose
reported `totalPages` (default 1) is at most the current page number.
`none` means the fuel ran out before the loop stopped. -/
def fetchPagesAux (env : Env) (mbid : Int) : Nat → Nat → Option (Except FetchError (List Nat × List Folder))
  | 0, _ => none
  | fuel + 1, page =>
    match env.folderResp mbid page with
    | .transportErr m => some (.error (.transport m))
    | .httpErr _ _ => some (.ok ([page], []))
    | .ok pg =>
      if pg.totalPages.getD 1 ≤ page then some (.ok ([page], pg.folders))
      else
        match fetchPagesAux env mbid fuel (page + 1) with
        | none => none
        | some (.error e) => some (.error e)
        | some (.ok (ps, fs)) => some (.ok (page :: ps, pg.folders ++ fs))

/-- `_fetch_all_folders_for_mailbox`: run the page loop from page 1 and keep
the accumulated folders. -/
def fetchAllFoldersForMailbox (env : Env) (mbid : Int) (fuel : Nat) : Option (Except FetchError (List Folder)) :=
  (fetchPagesAux env mbid fuel 1).map (fun r => r.map (·.2))

/-- Join a list of results where the first raised error wins, as
`asyncio.gather` is modelled sequentially. -/
def sequenceExcept {α : Type} : List (Except FetchError α) → Except FetchError (List α)
  | [] => .ok []
  | .error e :: _ => .error e
  | .ok a :: rest => (sequenceExcept rest).map (a :: ·)

/-- Join a list of fuelled computations; `none` anywhere is `none`. -/
def sequenceOption {α : Type} : List (Option α) → Option (List α)
  | [] => some []
  | none :: _ => none
  | some a :: rest => (sequenceOption rest).map (a :: ·)

/-- The `asyncio.gather` over `_fetch_all_folders_for_mailbox`, flattening the
per-mailbox folder lists. -/
def gatherFolders (env : Env) (mailboxList : List Int) (fuel : Nat) : Option (Except FetchError (List Folder)) :=
  match sequenceOption (mailboxList.map (fun m => fetchAllFoldersForMailbox env m fuel)) with
  | none => none
  | some results => some ((sequenceExcept results).map List.flatten)

/-- `_fetch_all_folders_for_mailboxes`: use the configured filter when
non-empty, else the fetched mailbox list (empty list short-circuits to no
folders). -/
def fetchAllFoldersForMailboxes (env : Env) (cfg : Config) (fuel : Nat) : Option (Except FetchError (List Folder)) :=
  if cfg.mailboxIds.isEmpty then
    match fetchAllMailboxIds env with
    | .error e => some (.error e)
    | .ok mailboxList =>
      if mailboxList.isEmpty then some (.ok [])
      else gatherFolders env mailboxList fuel
  else gatherFolders env cfg.mailboxIds fuel

/-- `_get_count`: `raise_for_status`, then `data.get("page", {}).get("totalElements", 0)`. -/
def getCount (env : Env) (q : CountQuery) : Except FetchError Int :=
  match env.countResp q with
  | .transportErr m => .error (.transport m)
  | .httpErr s m => .error (.api s m)
  | .ok te => .ok (te.getD 0)

/-- `_get_count_for_mailboxes`: one unfiltered query when the filter is empty,
else one query per configured mailbox, summed. -/
def getCountForMailboxes (env : Env) (cfg : Config) (status : String) (assignedTo : Option Int) : Except FetchError Int :=
  if cfg.mailboxIds.isEmpty then getCount env ⟨status, assignedTo, none⟩
  else (sequenceExcept (cfg.mailboxIds.map (fun m => getCount env ⟨status, assignedTo, some m⟩))).map (fun l => l.sum)

/-- `_fetch_recent_conversations`: `raise_for_status`, then the embedded list. -/
def fetchRecent (env : Env) (mb : Option Int) : Except FetchError (List Conversation) :=
  match env.recentResp mb with
  | .transportErr m => .error (.transport m)
  | .httpErr s m => .error (.api s m)
  | .ok convs => .ok convs

/-- The de-duplicating merge loop of `_check_new_conversations`: `seen` is the
set of ids already kept; the first occurrence of an id wins. -/
def dedupByIdAux (seen : List Int) : List Conversation → List Conversation
  | [] => []
  | c :: rest =>
    if c.id ∈ seen then dedupByIdAux seen rest
    else c :: dedupByIdAux (c.id :: seen) rest

/-- Merge per-mailbox recent-conversation lists, de-duplicating by id. -/
def mergeConversations (perMailbox : List (List Conversation)) : List Conversation :=
  dedupByIdAux [] perMailbox.flatten

/-- The fetch half of `_check_new_conversations`: one unfiltered query, or one
per configured mailbox merged with de-duplication. -/
def fetchMergedConversations (env : Env) (cfg : Config) : Except FetchError (List Conversation) :=
  if cfg.mailboxIds.isEmpty then fetchRecent env none
  else (sequenceExcept (cfg.mailboxIds.map (fun m => fetchRecent env (some m)))).map mergeConversations

/-- `current_ids = {int(c["id"]) for c in conversations}`. -/
def currentIdsOf (convs : List Conversation) : Finset Int :=
  (convs.map (·.id)).toFinset

/-- The event payload fired for one new conversation. -/
def eventOf (c : Conversation) : NewConversationEvent :=
  ⟨c.id, c.subject.getD "", c.status.getD "", c.mailboxId, c.assignee,
   c.createdAt.getD "", c.preview.getD ""⟩

/-- Count and events returned by the detection half of
`_check_new_conversations`. -/
structure CheckNewOutcome where
  newCount : Nat
  events : List NewConversationEvent
deriving DecidableEq, Repr

/-- The detection half of `_check_new_conversations`, applied to the merged
conversation list: cold-start seeding on the first refresh, otherwise the set
difference, the event loop in list order, and the unconditional
`self._known_ids = current_ids` replacement. -/
def checkNewUpdate (st : EngineState) (convs : List Conversation) : CheckNewOutcome × EngineState :=
  let currentIds := currentIdsOf convs
  if st.firstRefresh then
    (⟨0, []⟩, ⟨currentIds, false, st.customFolders⟩)
  else
    let newIds := currentIds \ st.knownIds
    (⟨newIds.card, (convs.filter (fun c => c.id ∈ newIds)).map eventOf⟩,
     ⟨currentIds, st.firstRefresh, st.customFolders⟩)

/-- `sum(f.get("activeCount", 0) for f in all_folders if f.get("type") == 1)`. -/
def unassignedCountOf (folders : List Folder) : Int :=
  (folders.filter (fun f => f.ftype = some 1)).foldl (fun acc f => acc + f.activeCount.getD 0) 0

/-- `sum(f.get("activeCount", 0) for f in all_folders if f.get("type") == 180)`. -/
def snoozedCountOf (folders : List Folder) : Int :=
  (folders.filter (fun f => f.ftype = some 180)).foldl (fun acc f => acc + f.activeCount.getD 0) 0

/-- `custom_counts[key] = custom_counts.get(key, 0) + v` on an insertion-ordered
dict modelled as an association list: an existing key is updated in place, a
new key is appended. -/
def upsertAdd : List (String × Int) → String → Int → List (String × Int)
  | [], k, v => [(k, v)]
  | (k', v') :: rest, k, v =>
    if k' = k then (k', v' + v) :: rest else (k', v') :: upsertAdd rest k v

/-- The custom-folder aggregation loop over `all_folders`, accumulator `m`. -/
def customCountsAux (m : List (String × Int)) : List Folder → List (String × Int)
  | [] => m
  | f :: rest =>
    customCountsAux
      (if f.ftype = some 185 then upsertAdd m ("folder_" ++ f.name) (f.activeCount.getD 0) else m)
      rest

/-- The `custom_counts` dict built by `_async_update_data` (keys carry the
`folder_` key prefix from `const.py`). -/
def customCountsOf (folders : List Folder) : List (String × Int) :=
  customCountsAux [] folders

/-- Dict lookup on the association list (keys are unique by construction). -/
def lookupCount : List (String × Int) → String → Option Int
  | [], _ => none
  | p :: rest, k => if p.1 = k then some p.2 else lookupCount rest k

/-- Python `key[7:]`, character-based slicing (`len("folder_") = 7`). -/
def dropChars (s : String) (n : Nat) : String := String.mk (s.data.drop n)

/-- The `self.custom_folders` list built from `custom_counts`:
`{"name": key[7:], "key": key}` in dict-insertion order. -/
def registryOf (customCounts : List (String × Int)) : List CustomFolderEntry :=
  customCounts.map (fun p => ⟨dropChars p.1 7, p.1⟩)

/-- `if not self.custom_folders and custom_counts:` populate the registry. -/
def commitRegistry (st : EngineState) (customCounts : List (String × Int)) : EngineState :=
  if st.customFolders.isEmpty && !customCounts.isEmpty then
    ⟨st.knownIds, st.firstRefresh, registryOf customCounts⟩
  else st

/-- The returned data dict: a key-ordered association list; the literal dict
merge `{...fixed..., **custom_counts}` gives later entries priority. -/
abbrev Snapshot := List (String × Option Int)

def buildSnapshot (openCount : Int) (unassigned : Int) (pendingCount : Int) (snoozed : Int)
    (newCount : Nat) (myTickets : Option Int) (customCounts : List (String × Int)) : Snapshot :=
  [("open_tickets", some openCount),
   ("unassigned_tickets", some unassigned),
   ("pending_tickets", some pendingCount),
   ("snoozed_tickets", some snoozed),
   ("new_tickets", some (newCount : Int)),
   ("my_tickets", myTickets)]
  ++ customCounts.map (fun p => (p.1, some p.2))

/-- Python-dict lookup on the key-ordered list: the last binding of a key wins
(dict-literal merge semantics). -/
def snapGet : Snapshot → String → Option (Option Int)
  | [], _ => none
  | p :: rest, k =>
    match snapGet rest k with
    | some v => some v
    | none => if p.1 = k then some p.2 else none

/-- First-binding lookup, used to state that no later entry shadows a key. -/
def lookupFirst : Snapshot → String → Option (Option Int)
  | [], _ => none
  | p :: rest, k => if p.1 = k then some p.2 else lookupFirst rest k

/-- Outcome of one `_async_update_data` call: the returned snapshot or the
`UpdateFailed` classification, together with the engine state afterwards. -/
structure CycleOutcome where
  result : Except CycleFailure Snapshot
  state : EngineState
deriving DecidableEq

def cycleFailed (o : CycleOutcome) : Bool :=
  match o.result with
  | .error _ => true
  | .ok _ => false

def cycleError (o : CycleOutcome) : Option CycleFailure :=
  match o.result with
  | .error e => some e
  | .ok _ => none

/-- The effect of the `new_task`: when its fetch succeeds it both returns the
outcome and commits `_known_ids`/`_first_refresh`, whatever the other tasks
do; when its fetch raises, the state is untouched. -/
def newStep (st : EngineState) (newFetch : Except FetchError (List Conversation)) :
    Except FetchError CheckNewOutcome × EngineState :=
  match newFetch with
  | .error e => (.error e, st)
  | .ok convs => (.ok (checkNewUpdate st convs).1, (checkNewUpdate st convs).2)

/-- The `my_tickets` step: skipped (None) when `self.agent_id` is falsy, else
one more count query. -/
def myTicketsStep (env : Env) (cfg : Config) : Except FetchError (Option Int) :=
  if cfg.agentId ≠ 0 then (getCountForMailboxes env cfg "active" (some cfg.agentId)).map some
  else .ok none

/-- Aggregation and snapshot assembly after every required fetch succeeded
(lines 114-150 of the coordinator). -/
def finishPhase (env : Env) (cfg : Config) (st1 : EngineState) (allFolders : List Folder)
    (openCount pendingCount : Int) (newOut : CheckNewOutcome) : CycleOutcome :=
  match myTicketsStep env cfg with
  | .error e => ⟨.error (classifyFailure e), st1⟩
  | .ok myTickets =>
    let customCounts := customCountsOf allFolders
    ⟨.ok (buildSnapshot openCount (unassignedCountOf allFolders) pendingCount
        (snoozedCountOf allFolders) newOut.newCount myTickets customCounts),
     commitRegistry st1 customCounts⟩

/-- The `asyncio.gather` join: the first raised error (in task order) aborts
the cycle with its `UpdateFailed` classification. -/
def joinPhase (env : Env) (cfg : Config) (st1 : EngineState)
    (foldersE : Except FetchError (List Folder))
    (openR pendingR : Except FetchError Int)
    (newR : Except FetchError CheckNewOutcome) : CycleOutcome :=
  match foldersE, openR, pendingR, newR with
  | .error e, _, _, _ => ⟨.error (classifyFailure e), st1⟩
  | _, .error e, _, _ => ⟨.error (classifyFailure e), st1⟩
  | _, _, .error e, _ => ⟨.error (classifyFailure e), st1⟩
  | _, _, _, .error e => ⟨.error (classifyFailure e), st1⟩
  | .ok allFolders, .ok openCount, .ok pendingCount, .ok newOut =>
    finishPhase env cfg st1 allFolders openCount pendingCount newOut

/-- One `_async_update_data` cycle.  `none` means the folder pagination loop
ran out of fuel (the Python loop would not have returned). -/
def runCycle (env : Env) (cfg : Config) (st : EngineState) (fuel : Nat) : Option CycleOutcome :=
  match fetchAllFoldersForMailboxes env cfg fuel with
  | none => none
  | some foldersE =>
    let np := newStep st (fetchMergedConversations env cfg)
    some (joinPhase env cfg np.2 foldersE
      (getCountForMailboxes env cfg "active" none)
      (getCountForMailboxes env cfg "pending" none)
      np.1)

/-! ### Lemmas about the de-duplicating merge -/

theorem dedupByIdAux_not_mem_seen (l : List Conversation) :
    ∀ seen, ∀ c ∈ dedupByIdAux seen l, c.id ∉ seen := by
  induction l with
  | nil => intro seen c hc; simp [dedupByIdAux] at hc
  | cons a rest ih =>
    intro seen c hc
    simp only [dedupByIdAux] at hc
    by_cases h : a.id ∈ seen
    · rw [if_pos h] at hc
      exact ih seen c hc
    · rw [if_neg h] at hc
      rcases List.mem_cons.mp hc with rfl | hc'
      · exact h
      · intro hmem
        exact ih (a.id :: seen) c hc' (List.mem_cons_of_mem _ hmem)

theorem dedupByIdAux_sublist (l : List Conversation) :
    ∀ seen, (dedupByIdAux seen l).Sublist l := by
  induction l with
  | nil => intro seen; simp [dedupByIdAux]
  | cons a rest ih =>
    intro seen
    simp only [dedupByIdAux]
    by_cases h : a.id ∈ seen
    · rw [if_pos h]; exact (ih seen).cons a
    · rw [if_neg h]; exact (ih _).cons₂ a

theorem dedupByIdAux_nodup (l : List Conversation) :
    ∀ seen, ((dedupByIdAux seen l).map (·.id)).Nodup := by
  induction l with
  | nil => intro seen; simp [dedupByIdAux]
  | cons a rest ih =>
    intro seen
    simp only [dedupByIdAux]
    by_cases h : a.id ∈ seen
    · rw [if_pos h]; exact ih seen
    · rw [if_neg h]
      simp only [List.map_cons, List.nodup_cons]
      refine ⟨?_, ih _⟩
      intro hmem
      rcases List.mem_map.mp hmem with ⟨c, hc, hid⟩
      exact dedupByIdAux_not_mem_seen rest (a.id :: seen) c hc
        (by rw [hid]; exact List.mem_cons_self _ _)

theorem dedupByIdAux_first_wins (l : List Conversation) :
    ∀ seen, ∀ c ∈ dedupByIdAux seen l, l.find? (fun d => d.id == c.id) = some c := by
  induction l with
  | nil => intro seen c hc; simp [dedupByIdAux] at hc
  | cons a rest ih =>
    intro seen c hc
    simp only [dedupByIdAux] at hc
    by_cases h : a.id ∈ seen
    · rw [if_pos h] at hc
      have hnot := dedupByIdAux_not_mem_seen rest seen c hc
      have hne : a.id ≠ c.id := fun heq => hnot (heq ▸ h)
      rw [List.find?_cons_of_neg _ (by simpa using hne)]
      exact ih seen c hc
    · rw [if_neg h] at hc
      rcases List.mem_cons.mp hc with rfl | hc'
      · rw [List.find?_cons_of_pos _ (by simp)]
      · have hnot := dedupByIdAux_not_mem_seen rest (a.id :: seen) c hc'
        have hne : a.id ≠ c.id := fun heq => hnot (heq ▸ List.mem_cons_self _ _)
        rw [List.find?_cons_of_neg _ (by simpa using hne)]
        exact ih _ c hc'

theorem dedupByIdAux_toFinset (l : List Conversation) :
    ∀ seen, ((dedupByIdAux seen l).map (·.id)).toFinset
      = (l.map (·.id)).toFinset \ seen.toFinset := by
  induction l with
  | nil => intro seen; simp [dedupByIdAux]
  | cons a rest ih =>
    intro seen
    simp only [dedupByIdAux]
    by_cases h : a.id ∈ seen
    · rw [if_pos h, ih seen]
      simp only [List.map_cons, List.toFinset_cons]
      ext x
      simp only [Finset.mem_sdiff, Finset.mem_insert, List.mem_toFinset]
      constructor
      · rintro ⟨hx, hns⟩; exact ⟨Or.inr hx, hns⟩
      · rintro ⟨hx | hx, hns⟩
        · exact absurd (hx ▸ h) hns
        · exact ⟨hx, hns⟩
    · rw [if_neg h]
      simp only [List.map_cons, List.toFinset_cons]
      rw [ih (a.id :: seen)]
      ext x
      simp only [Finset.mem_insert, Finset.mem_sdiff, List.mem_toFinset, List.toFinset_cons,
        List.mem_cons]
      constructor
      · rintro (rfl | ⟨hx, hns⟩)
        · exact ⟨Or.inl rfl, h⟩
        · exact ⟨Or.inr hx, fun hm => hns (Or.inr hm)⟩
      · rintro ⟨rfl | hx, hns⟩
        · exact Or.inl rfl
        · by_cases hxa : x = a.id
          · exact Or.inl hxa
          · exact Or.inr ⟨hx, fun hm => hm.elim hxa hns⟩

theorem mergeConversations_nodup (ls : List (List Conversation)) :
    ((mergeConversations ls).map (·.id)).Nodup :=
  dedupByIdAux_nodup _ []

theorem mergeConversations_sublist (ls : List (List Conversation)) :
    (mergeConversations ls).Sublist ls.flatten :=
  dedupByIdAux_sublist _ []

theorem mergeConversations_ids (ls : List (List Conversation)) :
    currentIdsOf (mergeConversations ls) = currentIdsOf ls.flatten := by
  unfold currentIdsOf mergeConversations
  rw [dedupByIdAux_toFinset]
  simp

theorem mergeConversations_first_wins (ls : List (List Conversation)) :
    ∀ c ∈ mergeConversations ls, ls.flatten.find? (fun d => d.id == c.id) = some c :=
  dedupByIdAux_first_wins _ []

/-! ### Lemmas about the event loop -/

theorem filter_mem_props (convs : List Conversation) (S : Finset Int)
    (hnd : (convs.map (·.id)).Nodup) (hsub : S ⊆ (convs.map (·.id)).toFinset) :
    ((convs.filter (fun c => c.id ∈ S)).map (·.id)).Nodup ∧
    ((convs.filter (fun c => c.id ∈ S)).map (·.id)).toFinset = S ∧
    (convs.filter (fun c => c.id ∈ S)).length = S.card := by
  have hmap : (convs.filter (fun c => c.id ∈ S)).map (·.id)
      = (convs.map (·.id)).filter (fun i => i ∈ S) := by
    rw [List.filter_map]
    rfl
  have hnd' : ((convs.filter (fun c => c.id ∈ S)).map (·.id)).Nodup := by
    rw [hmap]; exact hnd.filter _
  have hfin : ((convs.filter (fun c => c.id ∈ S)).map (·.id)).toFinset = S := by
    rw [hmap, List.toFinset_filter]
    simp only [decide_eq_true_eq]
    rw [Finset.filter_mem_eq_inter]
    exact Finset.inter_eq_right.mpr hsub
  refine ⟨hnd', hfin, ?_⟩
  have hlen : (convs.filter (fun c => c.id ∈ S)).length
      = ((convs.filter (fun c => c.id ∈ S)).map (·.id)).length := by
    rw [List.length_map]
  rw [hlen, ← List.toFinset_card_of_nodup hnd', hfin]

/-! ### Claims C1 and C2 -/

/-- C1: on a cycle after the first, the detector computes
`newIds = currentIds \ knownIds`; the returned `new` metric is `|newIds|`;
the event loop walks the merged result in order and fires exactly one event,
carrying the documented fields, per conversation whose id is in `newIds`
(the event-id list is duplicate-free and covers `newIds` exactly);
`knownIds` becomes `currentIds`; and the multi-mailbox merge is
duplicate-free by id, preserves the id set of the concatenated per-mailbox
results, keeps conversations in concatenation order, and keeps the first
occurrence of each id. -/
theorem C1_subsequent_cycle_detection
    (known : Finset Int) (reg : List CustomFolderEntry)
    (convs : List Conversation) (lists : List (List Conversation))
    (hnd : (convs.map (·.id)).Nodup) :
    (checkNewUpdate ⟨known, false, reg⟩ convs).1.newCount = (currentIdsOf convs \ known).card ∧
    (checkNewUpdate ⟨known, false, reg⟩ convs).1.events
      = (convs.filter (fun c => c.id ∈ currentIdsOf convs \ known)).map eventOf ∧
    (checkNewUpdate ⟨known, false, reg⟩ convs).1.events.length
      = (checkNewUpdate ⟨known, false, reg⟩ convs).1.newCount ∧
    ((checkNewUpdate ⟨known, false, reg⟩ convs).1.events.map (·.conversationId)).Nodup ∧
    ((checkNewUpdate ⟨known, false, reg⟩ convs).1.events.map (·.conversationId)).toFinset
      = currentIdsOf convs \ known ∧
    (checkNewUpdate ⟨known, false, reg⟩ convs).2.knownIds = currentIdsOf convs ∧
    ((mergeConversations lists).map (·.id)).Nodup ∧
    currentIdsOf (mergeConversations lists) = currentIdsOf lists.flatten ∧
    (mergeConversations lists).Sublist lists.flatten ∧
    ∀ c ∈ mergeConversations lists, lists.flatten.find? (fun d => d.id == c.id) = some c := by
  have hprops := filter_mem_props convs (currentIdsOf convs \ known) hnd
    (Finset.sdiff_subset)
  have hev : (checkNewUpdate ⟨known, false, reg⟩ convs).1.events
      = (convs.filter (fun c => c.id ∈ currentIdsOf convs \ known)).map eventOf := rfl
  have hevid : (checkNewUpdate ⟨known, false, reg⟩ convs).1.events.map (·.conversationId)
      = (convs.filter (fun c => c.id ∈ currentIdsOf convs \ known)).map (·.id) := by
    rw [hev, List.map_map]
    rfl
  refine ⟨rfl, hev, ?_, ?_, ?_, rfl,
    mergeConversations_nodup lists, mergeConversations_ids lists,
    mergeConversations_sublist lists, mergeConversations_first_wins lists⟩
  · rw [hev, List.length_map]
    exact hprops.2.2
  · rw [hevid]; exact hprops.1
  · rw [hevid]; exact hprops.2.1

def convW1 : Conversation := ⟨7, some "s7", some "active", some 1, none, some "t7", some "p7"⟩

def convW2 : Conversation := ⟨5, some "s5", some "active", some 1, some 2, some "t5", some "p5"⟩

theorem C1_subsequent_cycle_detection_witness :
    (([convW1, convW2].map (·.id)).Nodup) ∧
    (checkNewUpdate ⟨({5} : Finset Int), false, []⟩ [convW1, convW2]).1.newCount
      = (currentIdsOf [convW1, convW2] \ ({5} : Finset Int)).card := by
  refine ⟨by decide, ?_⟩
  exact (C1_subsequent_cycle_detection {5} [] [convW1, convW2] [[convW1], [convW1, convW2]]
    (by decide)).1

/-- C2: on the first cycle after construction the detector seeds
`knownIds = currentIds`, returns a `new` count of zero, emits no events, and
clears the first-refresh flag, for any fetched conversation list. -/
theorem C2_first_cycle_suppression (st : EngineState) (convs : List Conversation)
    (h : st.firstRefresh = true) :
    (checkNewUpdate st convs).1.newCount = 0 ∧
    (checkNewUpdate st convs).1.events = [] ∧
    (checkNewUpdate st convs).2.knownIds = currentIdsOf convs ∧
    (checkNewUpdate st convs).2.firstRefresh = false := by
  simp [checkNewUpdate, h]

theorem C2_first_cycle_suppression_witness :
    initState.firstRefresh = true ∧
    (checkNewUpdate initState [convW1, convW2]).1.newCount = 0 ∧
    (checkNewUpdate initState [convW1, convW2]).1.events = [] := by
  have h := C2_first_cycle_suppression initState [convW1, convW2] rfl
  exact ⟨rfl, h.1, h.2.1⟩

/-! ### Lemmas about the custom-folder aggregation -/

theorem lookupCount_upsertAdd_same (m : List (String × Int)) (k : String) (v : Int) :
    lookupCount (upsertAdd m k v) k = some ((lookupCount m k).getD 0 + v) := by
  induction m with
  | nil => simp [upsertAdd, lookupCount]
  | cons p rest ih =>
    obtain ⟨k', v'⟩ := p
    by_cases h : k' = k
    · subst h; simp [upsertAdd, lookupCount]
    · simp [upsertAdd, lookupCount, h, ih]

theorem lookupCount_upsertAdd_ne (m : List (String × Int)) (k k' : String) (v : Int)
    (h : k ≠ k') :
    lookupCount (upsertAdd m k v) k' = lookupCount m k' := by
  induction m with
  | nil => simp [upsertAdd, lookupCount, h]
  | cons p rest ih =>
    obtain ⟨k1, v1⟩ := p
    by_cases h1 : k1 = k
    · subst h1; simp [upsertAdd, lookupCount, h]
    · by_cases h2 : k1 = k'
      · simp [upsertAdd, lookupCount, h1, h2, Ne.symm h]
      · simp [upsertAdd, lookupCount, h1, h2, ih]

/-- The total active count contributed to key `k` by the custom folders of a
folder list, `none` when no folder contributes to `k`. -/
def customSumAt (folders : List Folder) (k : String) : Option Int :=
  if (folders.filter (fun f => f.ftype = some 185 ∧ "folder_" ++ f.name = k)).isEmpty then none
  else some (((folders.filter (fun f => f.ftype = some 185 ∧ "folder_" ++ f.name = k)).map
    (fun f => f.activeCount.getD 0)).sum)

/-- Total contribution to key `k`, counting an absent key as 0. -/
def customSumList (folders : List Folder) (k : String) : Int :=
  ((folders.filter (fun f => f.ftype = some 185 ∧ "folder_" ++ f.name = k)).map
    (fun f => f.activeCount.getD 0)).sum

theorem getD_lookupCount_customCountsAux (folders : List Folder) :
    ∀ m k, (lookupCount (customCountsAux m folders) k).getD 0
      = (lookupCount m k).getD 0 + customSumList folders k := by
  induction folders with
  | nil => intro m k; simp [customCountsAux, customSumList]
  | cons f rest ih =>
    intro m k
    by_cases hft : f.ftype = some 185
    · by_cases hk : "folder_" ++ f.name = k
      · have hstep : customCountsAux m (f :: rest)
            = customCountsAux (upsertAdd m k (f.activeCount.getD 0)) rest := by
          simp [customCountsAux, hft, hk]
        rw [hstep, ih, lookupCount_upsertAdd_same]
        have hsum : customSumList (f :: rest) k
            = f.activeCount.getD 0 + customSumList rest k := by
          simp [customSumList, List.filter_cons, hft, hk]
        rw [hsum]
        simp only [Option.getD_some]
        ring
      · have hstep : customCountsAux m (f :: rest)
            = customCountsAux (upsertAdd m ("folder_" ++ f.name) (f.activeCount.getD 0)) rest := by
          simp [customCountsAux, hft]
        rw [hstep, ih, lookupCount_upsertAdd_ne _ _ _ _ hk]
        have hsum : customSumList (f :: rest) k = customSumList rest k := by
          simp [customSumList, List.filter_cons, hk]
        rw [hsum]
    · have hstep : customCountsAux m (f :: rest) = customCountsAux m rest := by
        simp [customCountsAux, hft]
      rw [hstep, ih]
      have hsum : customSumList (f :: rest) k = customSumList rest k := by
        simp [customSumList, List.filter_cons, hft]
      rw [hsum]

theorem isSome_lookupCount_customCountsAux (folders : List Folder) :
    ∀ m k, (lookupCount (customCountsAux m folders) k).isSome
      = ((lookupCount m k).isSome
         || !(folders.filter (fun f => f.ftype = some 185 ∧ "folder_" ++ f.name = k)).isEmpty) := by
  induction folders with
  | nil => intro m k; simp [customCountsAux]
  | cons f rest ih =>
    intro m k
    by_cases hft : f.ftype = some 185
    · by_cases hk : "folder_" ++ f.name = k
      · have hstep : customCountsAux m (f :: rest)
            = customCountsAux (upsertAdd m k (f.activeCount.getD 0)) rest := by
          simp [customCountsAux, hft, hk]
        rw [hstep, ih, lookupCount_upsertAdd_same]
        simp [List.filter_cons, hft, hk]
      · have hstep : customCountsAux m (f :: rest)
            = customCountsAux (upsertAdd m ("folder_" ++ f.name) (f.activeCount.getD 0)) rest := by
          simp [customCountsAux, hft]
        rw [hstep, ih, lookupCount_upsertAdd_ne _ _ _ _ hk]
        have hfil : (f :: rest).filter (fun g => g.ftype = some 185 ∧ "folder_" ++ g.name = k)
            = rest.filter (fun g => g.ftype = some 185 ∧ "folder_" ++ g.name = k) := by
          simp [List.filter_cons, hk]
        rw [hfil]
    · have hstep : customCountsAux m (f :: rest) = customCountsAux m rest := by
        simp [customCountsAux, hft]
      rw [hstep, ih]
      have hfil : (f :: rest).filter (fun g => g.ftype = some 185 ∧ "folder_" ++ g.name = k)
          = rest.filter (fun g => g.ftype = some 185 ∧ "folder_" ++ g.name = k) := by
        simp [List.filter_cons, hft]
      rw [hfil]

theorem lookupCount_customCountsOf (folders : List Folder) (k : String) :
    lookupCount (customCountsOf folders) k = customSumAt folders k := by
  have hg := getD_lookupCount_customCountsAux folders [] k
  have hs := isSome_lookupCount_customCountsAux folders [] k
  simp only [lookupCount, Option.getD_none, Option.isSome_none, Bool.false_or, zero_add] at hg hs
  by_cases he : (folders.filter (fun f => f.ftype = some 185 ∧ "folder_" ++ f.name = k)).isEmpty
  · have hnone : lookupCount (customCountsAux [] folders) k = none := by
      rw [he] at hs
      simp only [Bool.not_true] at hs
      exact Option.not_isSome_iff_eq_none.mp (by simp [hs])
    rw [customCountsOf, hnone, customSumAt, if_pos he]
  · have he' : (folders.filter
        (fun f => f.ftype = some 185 ∧ "folder_" ++ f.name = k)).isEmpty = false := by
      simpa using he
    have hsome : (lookupCount (customCountsAux [] folders) k).isSome = true := by
      rw [hs, he']
      rfl
    obtain ⟨v, hv⟩ := Option.isSome_iff_exists.mp hsome
    rw [customCountsOf, hv, customSumAt, if_neg he]
    have hval : v = customSumList folders k := by
      rw [hv] at hg
      simpa using hg
    rw [hval]
    rfl

theorem folder_key_inj (a b : String) : ("folder_" ++ a = "folder_" ++ b) ↔ a = b := by
  constructor
  · intro h
    have hd := congrArg String.data h
    simp only [String.data_append] at hd
    exact String.ext (List.append_cancel_left hd)
  · intro h; rw [h]

theorem foldl_add_counts (cnt : Folder → Int) :
    ∀ (l : List Folder) (init : Int),
      l.foldl (fun acc f => acc + cnt f) init = init + (l.map cnt).sum := by
  intro l
  induction l with
  | nil => simp
  | cons a rest ih =>
    intro init
    simp only [List.foldl_cons, List.map_cons, List.sum_cons, ih]
    ring

/-- C3: `unassigned` is the sum of `activeCount` over type-1 folders,
`snoozed` over type-180 folders; the custom-count dict maps the key of a name
to the total `activeCount` of the type-185 folders with that name (keys of the
same name across mailboxes are merged, as on the two "Dashboard Repair"
folders with counts 2 and 3); a folder of any other type contributes to none
of the three aggregates. -/
theorem C3_folder_aggregation (folders : List Folder) (name : String) (f : Folder)
    (hf : f.ftype ≠ some 1 ∧ f.ftype ≠ some 180 ∧ f.ftype ≠ some 185) :
    unassignedCountOf folders
      = ((folders.filter (fun g => g.ftype = some 1)).map (fun g => g.activeCount.getD 0)).sum ∧
    snoozedCountOf folders
      = ((folders.filter (fun g => g.ftype = some 180)).map (fun g => g.activeCount.getD 0)).sum ∧
    lookupCount (customCountsOf folders) ("folder_" ++ name)
      = customSumAt folders ("folder_" ++ name) ∧
    (folders.filter (fun g => g.ftype = some 185 ∧ "folder_" ++ g.name = "folder_" ++ name))
      = (folders.filter (fun g => g.ftype = some 185 ∧ g.name = name)) ∧
    customCountsOf [⟨some 185, "Dashboard Repair", some 2⟩, ⟨some 185, "Dashboard Repair", some 3⟩]
      = [("folder_Dashboard Repair", 5)] ∧
    unassignedCountOf (f :: folders) = unassignedCountOf folders ∧
    snoozedCountOf (f :: folders) = snoozedCountOf folders ∧
    customCountsOf (f :: folders) = customCountsOf folders := by
  obtain ⟨h1, h180, h185⟩ := hf
  refine ⟨?_, ?_, ?_, ?_, by decide, ?_, ?_, ?_⟩
  · rw [unassignedCountOf, foldl_add_counts]; ring
  · rw [snoozedCountOf, foldl_add_counts]; ring
  · exact lookupCount_customCountsOf folders ("folder_" ++ name)
  · apply List.filter_congr
    intro g _
    simp [folder_key_inj]
  · rw [unassignedCountOf, unassignedCountOf, List.filter_cons, if_neg (by simp [h1])]
  · rw [snoozedCountOf, snoozedCountOf, List.filter_cons, if_neg (by simp [h180])]
  · rw [customCountsOf, customCountsOf]
    simp [customCountsAux, h185]

theorem C3_folder_aggregation_witness :
    ((⟨some 99, "x", some 4⟩ : Folder).ftype ≠ some 1 ∧
     (⟨some 99, "x", some 4⟩ : Folder).ftype ≠ some 180 ∧
     (⟨some 99, "x", some 4⟩ : Folder).ftype ≠ some 185) ∧
    customCountsOf [⟨some 185, "Dashboard Repair", some 2⟩, ⟨some 185, "Dashboard Repair", some 3⟩]
      = [("folder_Dashboard Repair", 5)] ∧
    unassignedCountOf [(⟨some 99, "x", some 4⟩ : Folder)] = unassignedCountOf [] := by
  have h := C3_folder_aggregation [] "Dashboard Repair" ⟨some 99, "x", some 4⟩ (by decide)
  exact ⟨by decide, h.2.2.2.2.1, h.2.2.2.2.2.1⟩

/-! ### Pagination (C7) -/

theorem fetchPagesAux_ok_step (env : Env) (m : Int) (fuel page : Nat) (pg : FolderPage)
    (h : env.folderResp m page = .ok pg) :
    fetchPagesAux env m (fuel + 1) page
      = if pg.totalPages.getD 1 ≤ page then some (.ok ([page], pg.folders))
        else
          match fetchPagesAux env m fuel (page + 1) with
          | none => none
          | some (.error e) => some (.error e)
          | some (.ok (ps, fs)) => some (.ok (page :: ps, pg.folders ++ fs)) := by
  simp only [fetchPagesAux]
  rw [h]

theorem fetchPagesAux_httpErr_step (env : Env) (m : Int) (fuel page : Nat)
    (s : Nat) (msg : String) (h : env.folderResp m page = .httpErr s msg) :
    fetchPagesAux env m (fuel + 1) page = some (.ok ([page], [])) := by
  simp only [fetchPagesAux]
  rw [h]

theorem fetchPagesAux_const (env : Env) (m : Int) (T : Nat) (pgs : Nat → FolderPage)
    (hok : ∀ p, 1 ≤ p → p ≤ T → env.folderResp m p = .ok (pgs p))
    (htp : ∀ p, 1 ≤ p → p ≤ T → (pgs p).totalPages = some T) :
    ∀ k page, 1 ≤ page → page + k = T →
      fetchPagesAux env m (k + 1) page
        = some (.ok (List.range' page (k + 1),
            ((List.range' page (k + 1)).map (fun p => (pgs p).folders)).flatten)) := by
  intro k
  induction k with
  | zero =>
    intro page h1 hpT
    have hp : page = T := by omega
    subst hp
    rw [fetchPagesAux_ok_step env m 0 page (pgs page) (hok page h1 le_rfl),
      htp page h1 le_rfl]
    rw [if_pos (by simp)]
    simp [List.range'_one]
  | succ k ih =>
    intro page h1 hpT
    have hlt : page < T := by omega
    rw [fetchPagesAux_ok_step env m (k + 1) page (pgs page) (hok page h1 (le_of_lt hlt)),
      htp page h1 (le_of_lt hlt)]
    have hcond : ¬ ((some T).getD 1 ≤ page) := by simp; omega
    rw [if_neg hcond]
    rw [ih (page + 1) (by omega) (by omega)]
    simp [List.range'_succ]

/-- C7: when every page response reports the same `totalPages = T ≥ 1`, the
folder pagination loop for one mailbox stops after exactly `T` requests,
issued for pages `1, 2, ..., T` in order (fuel `T` suffices, so the loop
terminates), and it accumulates the pages' folders in page order; when the
first response omits `totalPages` it defaults to 1 and the loop stops after
that single request. -/
theorem C7_pagination_termination (env : Env) (m : Int) (T : Nat) (pgs : Nat → FolderPage)
    (hT : 1 ≤ T)
    (hok : ∀ p, 1 ≤ p → p ≤ T → env.folderResp m p = .ok (pgs p))
    (htp : ∀ p, 1 ≤ p → p ≤ T → (pgs p).totalPages = some T) :
    fetchPagesAux env m T 1
      = some (.ok (List.range' 1 T,
          ((List.range' 1 T).map (fun p => (pgs p).folders)).flatten)) ∧
    (∀ (fuel : Nat) (pg1 : FolderPage), env.folderResp m 1 = .ok pg1 → pg1.totalPages = none →
      fetchPagesAux env m (fuel + 1) 1 = some (.ok ([1], pg1.folders))) := by
  constructor
  · have h := fetchPagesAux_const env m T pgs hok htp (T - 1) 1 le_rfl (by omega)
    rwa [show T - 1 + 1 = T from by omega] at h
  · intro fuel pg1 h1 hnone
    rw [fetchPagesAux_ok_step env m fuel 1 pg1 h1, hnone]
    simp

def envC7 : Env :=
  ⟨.ok [], fun _ _ => .ok ⟨[], some 3⟩, fun _ => .ok none, fun _ => .ok []⟩

theorem C7_pagination_termination_witness :
    (1 : Nat) ≤ 3 ∧ fetchPagesAux envC7 4 3 1 = some (.ok ([1, 2, 3], [])) := by
  refine ⟨by omega, ?_⟩
  have h := (C7_pagination_termination envC7 4 3 (fun _ => ⟨[], some 3⟩) (by omega)
    (fun p _ _ => rfl) (fun p _ _ => rfl)).1
  rw [h]
  decide

/-! ### Structural lemmas about one cycle -/

theorem newStep_err (st : EngineState) (e : FetchError) :
    newStep st (.error e) = (.error e, st) := rfl

theorem newStep_ok (st : EngineState) (convs : List Conversation) :
    newStep st (.ok convs) = (.ok (checkNewUpdate st convs).1, (checkNewUpdate st convs).2) := rfl

theorem checkNewUpdate_customFolders (st : EngineState) (convs : List Conversation) :
    (checkNewUpdate st convs).2.customFolders = st.customFolders := by
  simp only [checkNewUpdate]
  split <;> rfl

theorem checkNewUpdate_knownIds (st : EngineState) (convs : List Conversation) :
    (checkNewUpdate st convs).2.knownIds = currentIdsOf convs := by
  simp only [checkNewUpdate]
  split <;> rfl

theorem commitRegistry_knownIds (st : EngineState) (cc : List (String × Int)) :
    (commitRegistry st cc).knownIds = st.knownIds := by
  rw [commitRegistry]
  split <;> rfl

theorem commitRegistry_of_nonempty (st : EngineState) (cc : List (String × Int))
    (h : st.customFolders ≠ []) : commitRegistry st cc = st := by
  rw [commitRegistry, if_neg]
  simp [List.isEmpty_iff, h]

theorem finishPhase_my_err (env : Env) (cfg : Config) (st1 : EngineState)
    (folds : List Folder) (oc pc : Int) (no : CheckNewOutcome) (e : FetchError)
    (h : myTicketsStep env cfg = .error e) :
    finishPhase env cfg st1 folds oc pc no = ⟨.error (classifyFailure e), st1⟩ := by
  simp only [finishPhase]
  rw [h]

theorem finishPhase_my_ok (env : Env) (cfg : Config) (st1 : EngineState)
    (folds : List Folder) (oc pc : Int) (no : CheckNewOutcome) (my : Option Int)
    (h : myTicketsStep env cfg = .ok my) :
    finishPhase env cfg st1 folds oc pc no
      = ⟨.ok (buildSnapshot oc (unassignedCountOf folds) pc (snoozedCountOf folds)
          no.newCount my (customCountsOf folds)),
        commitRegistry st1 (customCountsOf folds)⟩ := by
  simp only [finishPhase]
  rw [h]

theorem joinPhase_folders_err (env : Env) (cfg : Config) (st1 : EngineState) (e : FetchError)
    (openR pendingR : Except FetchError Int) (newR : Except FetchError CheckNewOutcome) :
    joinPhase env cfg st1 (.error e) openR pendingR newR = ⟨.error (classifyFailure e), st1⟩ := by
  cases openR <;> cases pendingR <;> cases newR <;> rfl

theorem joinPhase_open_err (env : Env) (cfg : Config) (st1 : EngineState)
    (folds : List Folder) (e : FetchError)
    (pendingR : Except FetchError Int) (newR : Except FetchError CheckNewOutcome) :
    joinPhase env cfg st1 (.ok folds) (.error e) pendingR newR
      = ⟨.error (classifyFailure e), st1⟩ := by
  cases pendingR <;> cases newR <;> rfl

theorem joinPhase_pending_err (env : Env) (cfg : Config) (st1 : EngineState)
    (folds : List Folder) (oc : Int) (e : FetchError) (newR : Except FetchError CheckNewOutcome) :
    joinPhase env cfg st1 (.ok folds) (.ok oc) (.error e) newR
      = ⟨.error (classifyFailure e), st1⟩ := by
  cases newR <;> rfl

theorem joinPhase_new_err (env : Env) (cfg : Config) (st1 : EngineState)
    (folds : List Folder) (oc pc : Int) (e : FetchError) :
    joinPhase env cfg st1 (.ok folds) (.ok oc) (.ok pc) (.error e)
      = ⟨.error (classifyFailure e), st1⟩ := rfl

theorem joinPhase_all_ok (env : Env) (cfg : Config) (st1 : EngineState)
    (folds : List Folder) (oc pc : Int) (no : CheckNewOutcome) :
    joinPhase env cfg st1 (.ok folds) (.ok oc) (.ok pc) (.ok no)
      = finishPhase env cfg st1 folds oc pc no := rfl

theorem runCycle_some (env : Env) (cfg : Config) (st : EngineState) (fuel : Nat)
    (foldersE : Except FetchError (List Folder))
    (h : fetchAllFoldersForMailboxes env cfg fuel = some foldersE) :
    runCycle env cfg st fuel
      = some (joinPhase env cfg (newStep st (fetchMergedConversations env cfg)).2 foldersE
          (getCountForMailboxes env cfg "active" none)
          (getCountForMailboxes env cfg "pending" none)
          (newStep st (fetchMergedConversations env cfg)).1) := by
  simp only [runCycle]
  rw [h]

theorem runCycle_none (env : Env) (cfg : Config) (st : EngineState) (fuel : Nat)
    (h : fetchAllFoldersForMailboxes env cfg fuel = none) :
    runCycle env cfg st fuel = none := by
  simp only [runCycle]
  rw [h]

theorem runCycle_success (env : Env) (cfg : Config) (st : EngineState) (fuel : Nat)
    (folds : List Folder) (oc pc : Int) (convs : List Conversation) (my : Option Int)
    (hf : fetchAllFoldersForMailboxes env cfg fuel = some (.ok folds))
    (ho : getCountForMailboxes env cfg "active" none = .ok oc)
    (hp : getCountForMailboxes env cfg "pending" none = .ok pc)
    (hn : fetchMergedConversations env cfg = .ok convs)
    (hm : myTicketsStep env cfg = .ok my) :
    runCycle env cfg st fuel
      = some ⟨.ok (buildSnapshot oc (unassignedCountOf folds) pc (snoozedCountOf folds)
          (checkNewUpdate st convs).1.newCount my (customCountsOf folds)),
        commitRegistry (checkNewUpdate st convs).2 (customCountsOf folds)⟩ := by
  rw [runCycle_some env cfg st fuel (.ok folds) hf, hn, newStep_ok]
  dsimp only
  rw [ho, hp, joinPhase_all_ok, finishPhase_my_ok env cfg _ folds oc pc _ my hm]

theorem myTicketsStep_ok_shape (env : Env) (cfg : Config) (my : Option Int)
    (h : myTicketsStep env cfg = .ok my) :
    (cfg.agentId = 0 ∧ my = none) ∨ (cfg.agentId ≠ 0 ∧ ∃ n, my = some n) := by
  by_cases hc : cfg.agentId = 0
  · left
    refine ⟨hc, ?_⟩
    rw [myTicketsStep, if_neg (by simp [hc])] at h
    exact (Except.ok.inj h).symm
  · right
    refine ⟨hc, ?_⟩
    rw [myTicketsStep, if_pos hc] at h
    cases hg : getCountForMailboxes env cfg "active" (some cfg.agentId) with
    | error e => rw [hg] at h; exact absurd h (by simp [Except.map])
    | ok n =>
      rw [hg] at h
      simp only [Except.map] at h
      exact ⟨n, (Except.ok.inj h).symm⟩

theorem joinPhase_state_knownIds (env : Env) (cfg : Config) (st1 : EngineState)
    (fE : Except FetchError (List Folder)) (oR pR : Except FetchError Int)
    (nR : Except FetchError CheckNewOutcome) :
    (joinPhase env cfg st1 fE oR pR nR).state.knownIds = st1.knownIds := by
  cases fE with
  | error e => rw [joinPhase_folders_err]
  | ok folds =>
    cases oR with
    | error e => rw [joinPhase_open_err]
    | ok oc =>
      cases pR with
      | error e => rw [joinPhase_pending_err]
      | ok pc =>
        cases nR with
        | error e => rw [joinPhase_new_err]
        | ok no =>
          rw [joinPhase_all_ok]
          cases hmy : myTicketsStep env cfg with
          | error e => rw [finishPhase_my_err env cfg st1 folds oc pc no e hmy]
          | ok my =>
            rw [finishPhase_my_ok env cfg st1 folds oc pc no my hmy]
            exact commitRegistry_knownIds _ _

theorem joinPhase_result_err_state (env : Env) (cfg : Config) (st1 : EngineState)
    (fE : Except FetchError (List Folder)) (oR pR : Except FetchError Int)
    (nR : Except FetchError CheckNewOutcome)
    (hf : cycleFailed (joinPhase env cfg st1 fE oR pR nR) = true) :
    (joinPhase env cfg st1 fE oR pR nR).state = st1 := by
  cases fE with
  | error e => rw [joinPhase_folders_err]
  | ok folds =>
    cases oR with
    | error e => rw [joinPhase_open_err]
    | ok oc =>
      cases pR with
      | error e => rw [joinPhase_pending_err]
      | ok pc =>
        cases nR with
        | error e => rw [joinPhase_new_err]
        | ok no =>
          rw [joinPhase_all_ok] at hf ⊢
          cases hmy : myTicketsStep env cfg with
          | error e => rw [finishPhase_my_err env cfg st1 folds oc pc no e hmy]
          | ok my =>
            rw [finishPhase_my_ok env cfg st1 folds oc pc no my hmy] at hf
            exact absurd hf (by simp [cycleFailed])

theorem joinPhase_newR_err_state (env : Env) (cfg : Config) (st1 : EngineState)
    (fE : Except FetchError (List Folder)) (oR pR : Except FetchError Int) (e : FetchError) :
    (joinPhase env cfg st1 fE oR pR (.error e)).state = st1 := by
  cases fE <;> cases oR <;> cases pR <;>
    simp [joinPhase_folders_err, joinPhase_open_err, joinPhase_pending_err, joinPhase_new_err]

theorem joinPhase_customFolders_stable (env : Env) (cfg : Config) (st1 : EngineState)
    (fE : Except FetchError (List Folder)) (oR pR : Except FetchError Int)
    (nR : Except FetchError CheckNewOutcome)
    (h : st1.customFolders ≠ []) :
    (joinPhase env cfg st1 fE oR pR nR).state.customFolders = st1.customFolders := by
  cases fE with
  | error e => rw [joinPhase_folders_err]
  | ok folds =>
    cases oR with
    | error e => rw [joinPhase_open_err]
    | ok oc =>
      cases pR with
      | error e => rw [joinPhase_pending_err]
      | ok pc =>
        cases nR with
        | error e => rw [joinPhase_new_err]
        | ok no =>
          rw [joinPhase_all_ok]
          cases hmy : myTicketsStep env cfg with
          | error e => rw [finishPhase_my_err env cfg st1 folds oc pc no e hmy]
          | ok my =>
            rw [finishPhase_my_ok env cfg st1 folds oc pc no my hmy]
            rw [commitRegistry_of_nonempty st1 _ h]

/-- The state mutated by the new-arrival task before the join, as a function
of the pre-cycle state. -/
theorem newStep_customFolders (st : EngineState) (r : Except FetchError (List Conversation)) :
    (newStep st r).2.customFolders = st.customFolders := by
  cases r with
  | error e => rfl
  | ok convs => exact checkNewUpdate_customFolders st convs

theorem runCycle_out_shape (env : Env) (cfg : Config) (st : EngineState) (fuel : Nat)
    (out : CycleOutcome) (h : runCycle env cfg st fuel = some out) :
    ∃ fE, fetchAllFoldersForMailboxes env cfg fuel = some fE ∧
      out = joinPhase env cfg (newStep st (fetchMergedConversations env cfg)).2 fE
        (getCountForMailboxes env cfg "active" none)
        (getCountForMailboxes env cfg "pending" none)
        (newStep st (fetchMergedConversations env cfg)).1 := by
  cases hfold : fetchAllFoldersForMailboxes env cfg fuel with
  | none => rw [runCycle_none env cfg st fuel hfold] at h; exact absurd h (by simp)
  | some fE =>
    refine ⟨fE, rfl, ?_⟩
    rw [runCycle_some env cfg st fuel fE hfold] at h
    exact (Option.some.inj h).symm

theorem runCycle_customFolders_stable (env : Env) (cfg : Config) (st : EngineState)
    (fuel : Nat) (out : CycleOutcome)
    (h : runCycle env cfg st fuel = some out) (hne : st.customFolders ≠ []) :
    out.state.customFolders = st.customFolders := by
  obtain ⟨fE, _, hout⟩ := runCycle_out_shape env cfg st fuel out h
  rw [hout]
  rw [joinPhase_customFolders_stable env cfg _ fE _ _ _
    (by rw [newStep_customFolders]; exact hne)]
  rw [newStep_customFolders]

/-- Repeated cycles, threading the engine state. -/
def runCycles (cfg : Config) (fuel : Nat) : List Env → EngineState → Option EngineState
  | [], st => some st
  | env :: rest, st =>
    match runCycle env cfg st fuel with
    | none => none
    | some out => runCycles cfg fuel rest out.state

theorem runCycles_customFolders_stable (cfg : Config) (fuel : Nat) (envs : List Env) :
    ∀ st st', runCycles cfg fuel envs st = some st' → st.customFolders ≠ [] →
      st'.customFolders = st.customFolders := by
  induction envs with
  | nil =>
    intro st st' h hne
    simp only [runCycles] at h
    rw [← Option.some.inj h]
  | cons env rest ih =>
    intro st st' h hne
    simp only [runCycles] at h
    cases hc : runCycle env cfg st fuel with
    | none => rw [hc] at h; exact absurd h (by simp)
    | some out =>
      rw [hc] at h
      have hstable := runCycle_customFolders_stable env cfg st fuel out hc hne
      rw [ih out.state st' h (by rw [hstable]; exact hne), hstable]

theorem runCycle_ok_cases (env : Env) (cfg : Config) (st : EngineState) (fuel : Nat)
    (out : CycleOutcome) (folds : List Folder) (snap : Snapshot)
    (h : runCycle env cfg st fuel = some out)
    (hfold : fetchAllFoldersForMailboxes env cfg fuel = some (.ok folds))
    (hok : out.result = .ok snap) :
    ∃ oc pc convs my,
      getCountForMailboxes env cfg "active" none = .ok oc ∧
      getCountForMailboxes env cfg "pending" none = .ok pc ∧
      fetchMergedConversations env cfg = .ok convs ∧
      myTicketsStep env cfg = .ok my ∧
      out = ⟨.ok (buildSnapshot oc (unassignedCountOf folds) pc (snoozedCountOf folds)
          (checkNewUpdate st convs).1.newCount my (customCountsOf folds)),
        commitRegistry (checkNewUpdate st convs).2 (customCountsOf folds)⟩ ∧
      snap = buildSnapshot oc (unassignedCountOf folds) pc (snoozedCountOf folds)
          (checkNewUpdate st convs).1.newCount my (customCountsOf folds) := by
  rw [runCycle_some env cfg st fuel (.ok folds) hfold] at h
  have hout := (Option.some.inj h).symm
  cases ho : getCountForMailboxes env cfg "active" none with
  | error e =>
    rw [ho, joinPhase_open_err] at hout
    rw [hout] at hok
    exact absurd hok (by simp)
  | ok oc =>
    cases hp : getCountForMailboxes env cfg "pending" none with
    | error e =>
      rw [ho, hp, joinPhase_pending_err] at hout
      rw [hout] at hok
      exact absurd hok (by simp)
    | ok pc =>
      cases hn : fetchMergedConversations env cfg with
      | error e =>
        rw [ho, hp, hn, newStep_err] at hout
        dsimp only at hout
        rw [joinPhase_new_err] at hout
        rw [hout] at hok
        exact absurd hok (by simp)
      | ok convs =>
        rw [ho, hp, hn, newStep_ok] at hout
        dsimp only at hout
        rw [joinPhase_all_ok] at hout
        cases hmy : myTicketsStep env cfg with
        | error e =>
          rw [finishPhase_my_err env cfg _ folds oc pc _ e hmy] at hout
          rw [hout] at hok
          exact absurd hok (by simp)
        | ok my =>
          rw [finishPhase_my_ok env cfg _ folds oc pc _ my hmy] at hout
          refine ⟨oc, pc, convs, my, rfl, rfl, rfl, rfl, hout, ?_⟩
          rw [hout] at hok
          exact (Except.ok.inj hok).symm

theorem runCycle_ok_inv (env : Env) (cfg : Config) (st : EngineState) (fuel : Nat)
    (out : CycleOutcome) (snap : Snapshot)
    (h : runCycle env cfg st fuel = some out) (hok : out.result = .ok snap) :
    ∃ folds oc pc convs my,
      fetchAllFoldersForMailboxes env cfg fuel = some (.ok folds) ∧
      myTicketsStep env cfg = .ok my ∧
      snap = buildSnapshot oc (unassignedCountOf folds) pc (snoozedCountOf folds)
          (checkNewUpdate st convs).1.newCount my (customCountsOf folds) := by
  obtain ⟨fE, hfold, hout⟩ := runCycle_out_shape env cfg st fuel out h
  cases fE with
  | error e =>
    rw [hout, joinPhase_folders_err] at hok
    exact absurd hok (by simp)
  | ok folds =>
    obtain ⟨oc, pc, convs, my, _, _, _, hmy, _, hsnap⟩ :=
      runCycle_ok_cases env cfg st fuel out folds snap h hfold hok
    exact ⟨folds, oc, pc, convs, my, hfold, hmy, hsnap⟩

/-! ### Claim C4: soft per-mailbox folder failure -/

def f9a : Folder := ⟨some 1, "Unassigned", some 3⟩

def envC4 : Env :=
  ⟨.ok [],
   fun mb p =>
     if mb = 9 then (if p = 1 then .ok ⟨[f9a], some 2⟩ else .httpErr 500 "server error")
     else .ok ⟨[], some 1⟩,
   fun _ => .ok (some 0),
   fun _ => .ok []⟩

/-- C4 counterexample: mailbox 9's folder fetch receives a non-2xx response
(on page 2), yet the fetch result for that mailbox is not empty — the folders
of the successfully fetched page 1 are kept and contribute to aggregation,
contradicting "that mailbox's folders are treated as empty". -/
theorem C4_counterexample :
    envC4.folderResp 9 2 = .httpErr 500 "server error" ∧
    fetchAllFoldersForMailbox envC4 9 2 = some (.ok [f9a]) ∧
    ([f9a] : List Folder) ≠ [] ∧
    unassignedCountOf [f9a] = 3 := by
  refine ⟨rfl, by decide, by decide, by decide⟩

/-- C4 amended: a non-2xx response on some page of a mailbox's folder fetch
stops that mailbox's pagination there: the pages fetched before the failure
still contribute their folders, the failing page and later pages contribute
nothing — in particular a mailbox failing on its first page contributes
nothing — the fetch reports a soft success (never an error), the other
mailboxes' folders still contribute, and when the remaining fetches succeed
the cycle as a whole still succeeds. -/
theorem C4_soft_folder_failure
    (env1 : Env) (cfg : Config) (m1 m2 : Int) (fuel : Nat) (fs1 : List Folder)
    (st : EngineState) (s : Nat) (msg : String)
    (hcfg : cfg.mailboxIds = [m1, m2])
    (h1 : fetchAllFoldersForMailbox env1 m1 (fuel + 1) = some (.ok fs1))
    (h2 : env1.folderResp m2 1 = .httpErr s msg) :
    fetchAllFoldersForMailboxes env1 cfg (fuel + 1) = some (.ok fs1) ∧
    (∀ (env2 : Env) (m : Int) (pg1 : FolderPage) (s2 : Nat) (m2s : String) (fuel2 : Nat),
      env2.folderResp m 1 = .ok pg1 → pg1.totalPages = some 2 →
      env2.folderResp m 2 = .httpErr s2 m2s →
      fetchAllFoldersForMailbox env2 m (fuel2 + 2) = some (.ok pg1.folders)) ∧
    (∀ oc pc convs my,
      getCountForMailboxes env1 cfg "active" none = .ok oc →
      getCountForMailboxes env1 cfg "pending" none = .ok pc →
      fetchMergedConversations env1 cfg = .ok convs →
      myTicketsStep env1 cfg = .ok my →
      runCycle env1 cfg st (fuel + 1)
        = some ⟨.ok (buildSnapshot oc (unassignedCountOf fs1) pc (snoozedCountOf fs1)
            (checkNewUpdate st convs).1.newCount my (customCountsOf fs1)),
          commitRegistry (checkNewUpdate st convs).2 (customCountsOf fs1)⟩) := by
  have hm2 : fetchAllFoldersForMailbox env1 m2 (fuel + 1) = some (.ok []) := by
    rw [fetchAllFoldersForMailbox, fetchPagesAux_httpErr_step env1 m2 fuel 1 s msg h2]
    rfl
  have hall : fetchAllFoldersForMailboxes env1 cfg (fuel + 1) = some (.ok fs1) := by
    rw [fetchAllFoldersForMailboxes, hcfg]
    rw [if_neg (by simp)]
    rw [gatherFolders]
    simp only [List.map_cons, List.map_nil, h1, hm2]
    simp [sequenceOption, sequenceExcept, Except.map]
  refine ⟨hall, ?_, ?_⟩
  · intro env2 m pg1 s2 m2s fuel2 hp1 htp hp2
    show fetchAllFoldersForMailbox env2 m (fuel2 + 1 + 1) = some (.ok pg1.folders)
    rw [fetchAllFoldersForMailbox,
      fetchPagesAux_ok_step env2 m (fuel2 + 1) 1 pg1 hp1, htp]
    rw [if_neg (by simp)]
    rw [fetchPagesAux_httpErr_step env2 m fuel2 2 s2 m2s hp2]
    simp [Except.map]
  · intro oc pc convs my ho hp hn hmy
    exact runCycle_success env1 cfg st (fuel + 1) fs1 oc pc convs my hall ho hp hn hmy

def f5a : Folder := ⟨some 1, "Unassigned", some 2⟩

def envC4W : Env :=
  ⟨.ok [],
   fun mb _ => if mb = 5 then .ok ⟨[f5a], some 1⟩ else .httpErr 500 "server error",
   fun _ => .ok (some 0),
   fun _ => .ok []⟩

def cfgC4W : Config := ⟨0, [5, 9]⟩

theorem C4_soft_folder_failure_witness :
    cfgC4W.mailboxIds = [5, 9] ∧
    fetchAllFoldersForMailbox envC4W 5 1 = some (.ok [f5a]) ∧
    envC4W.folderResp 9 1 = .httpErr 500 "server error" ∧
    fetchAllFoldersForMailboxes envC4W cfgC4W 1 = some (.ok [f5a]) := by
  refine ⟨rfl, by decide, by decide, ?_⟩
  exact (C4_soft_folder_failure envC4W cfgC4W 5 9 0 [f5a] initState 500 "server error"
    rfl (by decide) (by decide)).1

/-! ### Claim C5: hard failures abort the cycle -/

/-- C5: a failing count query (open, pending, or my-tickets) or a failing
new-arrival fetch makes the whole cycle fail: `runCycle` returns an error
carrying the corresponding classification — `connectError` for a
connection-level `transport` failure, `apiError` with status and message for
a non-2xx response — and no snapshot is produced by that cycle. -/
theorem C5_hard_failure_aborts_cycle
    (env : Env) (cfg : Config) (st : EngineState) (fuel : Nat) (folds : List Folder)
    (hfold : fetchAllFoldersForMailboxes env cfg fuel = some (.ok folds)) :
    (∀ e, getCountForMailboxes env cfg "active" none = .error e →
      ∃ st1, runCycle env cfg st fuel = some ⟨.error (classifyFailure e), st1⟩) ∧
    (∀ e oc, getCountForMailboxes env cfg "active" none = .ok oc →
      getCountForMailboxes env cfg "pending" none = .error e →
      ∃ st1, runCycle env cfg st fuel = some ⟨.error (classifyFailure e), st1⟩) ∧
    (∀ e oc pc, getCountForMailboxes env cfg "active" none = .ok oc →
      getCountForMailboxes env cfg "pending" none = .ok pc →
      fetchMergedConversations env cfg = .error e →
      runCycle env cfg st fuel = some ⟨.error (classifyFailure e), st⟩) ∧
    (∀ e oc pc convs, getCountForMailboxes env cfg "active" none = .ok oc →
      getCountForMailboxes env cfg "pending" none = .ok pc →
      fetchMergedConversations env cfg = .ok convs →
      myTicketsStep env cfg = .error e →
      runCycle env cfg st fuel
        = some ⟨.error (classifyFailure e), (checkNewUpdate st convs).2⟩) := by
  refine ⟨?_, ?_, ?_, ?_⟩
  · intro e he
    refine ⟨(newStep st (fetchMergedConversations env cfg)).2, ?_⟩
    rw [runCycle_some env cfg st fuel (.ok folds) hfold, he, joinPhase_open_err]
  · intro e oc ho hpe
    refine ⟨(newStep st (fetchMergedConversations env cfg)).2, ?_⟩
    rw [runCycle_some env cfg st fuel (.ok folds) hfold, ho, hpe, joinPhase_pending_err]
  · intro e oc pc ho hp hn
    rw [runCycle_some env cfg st fuel (.ok folds) hfold, ho, hp, hn, newStep_err]
    dsimp only
    rw [joinPhase_new_err]
  · intro e oc pc convs ho hp hn hmy
    rw [runCycle_some env cfg st fuel (.ok folds) hfold, ho, hp, hn, newStep_ok]
    dsimp only
    rw [joinPhase_all_ok, finishPhase_my_err env cfg _ folds oc pc _ e hmy]

def envC5 : Env :=
  ⟨.ok [1],
   fun _ _ => .ok ⟨[], some 1⟩,
   fun q => if q.status = "active" then .httpErr 500 "boom" else .ok (some 4),
   fun _ => .ok []⟩

def cfgC5 : Config := ⟨0, []⟩

theorem C5_hard_failure_aborts_cycle_witness :
    fetchAllFoldersForMailboxes envC5 cfgC5 1 = some (.ok []) ∧
    getCountForMailboxes envC5 cfgC5 "active" none = .error (.api 500 "boom") ∧
    ∃ st1, runCycle envC5 cfgC5 initState 1
      = some ⟨.error (classifyFailure (.api 500 "boom")), st1⟩ := by
  refine ⟨by decide, by decide, ?_⟩
  exact (C5_hard_failure_aborts_cycle envC5 cfgC5 initState 1 [] (by decide)).1
    (.api 500 "boom") (by decide)

/-! ### Claim C6: cross-cycle state commit on error -/

def convC6 : Conversation := ⟨7, some "s", some "active", some 1, none, some "t", some "p"⟩

def envC6 : Env :=
  ⟨.ok [1],
   fun _ _ => .ok ⟨[], some 1⟩,
   fun q => if q.assignedTo = some 1 then .httpErr 500 "boom" else .ok (some 4),
   fun _ => .ok [convC6]⟩

def cfgC6 : Config := ⟨1, []⟩

def stC6 : EngineState := ⟨∅, false, []⟩

/-- C6 counterexample: with agent id 1, every gather task succeeds — the
new-arrival step commits `knownIds := {7}` — and then the my-tickets count
query fails, so the cycle fails, yet `knownIds` differs from its pre-cycle
value `∅`.  The KnownIdSet is therefore not committed only after full cycle
success. -/
theorem C6_counterexample :
    (runCycle envC6 cfgC6 stC6 1).map cycleFailed = some true ∧
    (runCycle envC6 cfgC6 stC6 1).map (fun o => o.state.knownIds) = some ({7} : Finset Int) ∧
    stC6.knownIds = (∅ : Finset Int) ∧
    ({7} : Finset Int) ≠ (∅ : Finset Int) := by
  refine ⟨by decide, by decide, rfl, by decide⟩

/-- C6 amended: the CustomFolderRegistry is committed only on successful
cycles — on any failed cycle it is unchanged — and when the new-arrival fetch
itself fails the whole engine state is unchanged; but the KnownIdSet is
committed by the new-arrival step as soon as its own fetch succeeds, becoming
the fetched current-id set even when a later sub-fetch (such as the
my-tickets count) fails the cycle. -/
theorem C6_state_commit
    (env : Env) (cfg : Config) (st : EngineState) (fuel : Nat) (out : CycleOutcome)
    (h : runCycle env cfg st fuel = some out) :
    ((∃ f, out.result = .error f) → out.state.customFolders = st.customFolders) ∧
    (∀ e, fetchMergedConversations env cfg = .error e → out.state = st) ∧
    (∀ convs, fetchMergedConversations env cfg = .ok convs →
      out.state.knownIds = currentIdsOf convs) := by
  obtain ⟨fE, _, hout⟩ := runCycle_out_shape env cfg st fuel out h
  refine ⟨?_, ?_, ?_⟩
  · rintro ⟨f, hferr⟩
    have hfail : cycleFailed out = true := by
      simp [cycleFailed, hferr]
    rw [hout] at hfail ⊢
    rw [joinPhase_result_err_state env cfg _ fE _ _ _ hfail]
    rw [newStep_customFolders]
  · intro e hn
    rw [hout, hn, newStep_err]
    dsimp only
    exact joinPhase_newR_err_state env cfg st fE _ _ e
  · intro convs hn
    rw [hout, hn, newStep_ok]
    dsimp only
    rw [joinPhase_state_knownIds]
    exact checkNewUpdate_knownIds st convs

def outC6 : CycleOutcome :=
  ⟨.error (.apiError 500 "boom"), ⟨{7}, false, []⟩⟩

theorem C6_state_commit_witness :
    runCycle envC6 cfgC6 stC6 1 = some outC6 ∧
    fetchMergedConversations envC6 cfgC6 = .ok [convC6] ∧
    outC6.state.knownIds = currentIdsOf [convC6] := by
  refine ⟨by decide, by decide, ?_⟩
  exact (C6_state_commit envC6 cfgC6 stC6 1 outC6 (by decide)).2.2 [convC6] (by decide)

/-! ### Claim C8: registry population -/

theorem upsertAdd_keys (m : List (String × Int)) (k : String) (v : Int) :
    ∀ p ∈ upsertAdd m k v, p.1 = k ∨ ∃ q ∈ m, p.1 = q.1 := by
  induction m with
  | nil =>
    intro p hp
    simp only [upsertAdd, List.mem_singleton] at hp
    left
    rw [hp]
  | cons q rest ih =>
    intro p hp
    obtain ⟨k1, v1⟩ := q
    by_cases h : k1 = k
    · simp only [upsertAdd, if_pos h] at hp
      rcases List.mem_cons.mp hp with rfl | hp'
      · right; exact ⟨(k1, v1), List.mem_cons_self _ _, rfl⟩
      · right; exact ⟨p, List.mem_cons_of_mem _ hp', rfl⟩
    · simp only [upsertAdd, if_neg h] at hp
      rcases List.mem_cons.mp hp with rfl | hp'
      · right; exact ⟨(k1, v1), List.mem_cons_self _ _, rfl⟩
      · rcases ih p hp' with hk | ⟨q', hq', hq1⟩
        · left; exact hk
        · right; exact ⟨q', List.mem_cons_of_mem _ hq', hq1⟩

theorem customCountsAux_keys_form (folders : List Folder) :
    ∀ m, (∀ p ∈ m, ∃ r, p.1 = "folder_" ++ r) →
      ∀ p ∈ customCountsAux m folders, ∃ r, p.1 = "folder_" ++ r := by
  induction folders with
  | nil =>
    intro m hm p hp
    simp only [customCountsAux] at hp
    exact hm p hp
  | cons f rest ih =>
    intro m hm p hp
    simp only [customCountsAux] at hp
    by_cases hft : f.ftype = some 185
    · rw [if_pos hft] at hp
      refine ih _ ?_ p hp
      intro q hq
      rcases upsertAdd_keys m ("folder_" ++ f.name) (f.activeCount.getD 0) q hq with hk | ⟨q', hq', hk⟩
      · exact ⟨f.name, hk⟩
      · obtain ⟨r, hr⟩ := hm q' hq'
        exact ⟨r, by rw [hk, hr]⟩
    · rw [if_neg hft] at hp
      exact ih m hm p hp

theorem customCountsOf_keys_form (folders : List Folder) :
    ∀ p ∈ customCountsOf folders, ∃ r, p.1 = "folder_" ++ r :=
  customCountsAux_keys_form folders [] (by simp)

theorem lookupCount_isSome_mem (m : List (String × Int)) (k : String)
    (h : (lookupCount m k).isSome = true) : ∃ v, (k, v) ∈ m := by
  induction m with
  | nil => simp [lookupCount] at h
  | cons p rest ih =>
    by_cases hp : p.1 = k
    · refine ⟨p.2, ?_⟩
      rw [← hp]
      simp
    · simp only [lookupCount, if_neg hp] at h
      obtain ⟨v, hv⟩ := ih h
      exact ⟨v, List.mem_cons_of_mem _ hv⟩

theorem dropChars_folder_key (r : String) : dropChars ("folder_" ++ r) 7 = r := by
  rw [dropChars, String.data_append]
  have h7 : ("folder_" : String).data.length = 7 := rfl
  rw [← h7, List.drop_left]

/-- C8: the CustomFolderRegistry never changes once non-empty (on single
cycles and along any sequence of cycles); starting empty, a successful cycle
leaves it empty when no custom folders were observed and otherwise populates
it from the distinct custom keys observed in that cycle, each entry pairing a
key of the observed form with that key's name (the key minus the 7-character
prefix), with one entry reachable from every type-185 folder of the cycle. -/
theorem C8_registry_population
    (env : Env) (cfg : Config) (st : EngineState) (fuel : Nat) (out : CycleOutcome)
    (folds : List Folder) (snap : Snapshot) (envs : List Env) (st9 : EngineState)
    (h : runCycle env cfg st fuel = some out) :
    (st.customFolders ≠ [] → out.state.customFolders = st.customFolders) ∧
    (st.customFolders = [] → out.result = .ok snap →
      fetchAllFoldersForMailboxes env cfg fuel = some (.ok folds) →
      (customCountsOf folds = [] → out.state.customFolders = []) ∧
      (customCountsOf folds ≠ [] →
        out.state.customFolders = registryOf (customCountsOf folds) ∧
        (∀ e ∈ registryOf (customCountsOf folds), "folder_" ++ e.name = e.key) ∧
        (∀ f ∈ folds, f.ftype = some 185 →
          ∃ e ∈ registryOf (customCountsOf folds),
            e.key = "folder_" ++ f.name ∧ e.name = f.name))) ∧
    (∀ st', runCycles cfg fuel envs st9 = some st' → st9.customFolders ≠ [] →
      st'.customFolders = st9.customFolders) := by
  refine ⟨fun hne => runCycle_customFolders_stable env cfg st fuel out h hne, ?_,
    fun st' hrc hne => runCycles_customFolders_stable cfg fuel envs st9 st' hrc hne⟩
  intro hreg hok hfold
  obtain ⟨oc, pc, convs, my, _, _, _, _, hout, _⟩ :=
    runCycle_ok_cases env cfg st fuel out folds snap h hfold hok
  have hstate : out.state = commitRegistry (checkNewUpdate st convs).2 (customCountsOf folds) := by
    rw [hout]
  have hcf1 : (checkNewUpdate st convs).2.customFolders = [] := by
    rw [checkNewUpdate_customFolders, hreg]
  constructor
  · intro hcc
    rw [hstate, commitRegistry, if_neg (by simp [hcc])]
    exact hcf1
  · intro hcc
    have hpop : out.state.customFolders = registryOf (customCountsOf folds) := by
      rw [hstate, commitRegistry, if_pos (by simp [hcf1, List.isEmpty_iff, hcc])]
    refine ⟨hpop, ?_, ?_⟩
    · intro e he
      rw [registryOf] at he
      obtain ⟨p, hp, hpe⟩ := List.mem_map.mp he
      obtain ⟨r, hr⟩ := customCountsOf_keys_form folds p hp
      rw [← hpe]
      simp only []
      rw [hr, dropChars_folder_key]
    · intro f hf hft
      have hmem : f ∈ folds.filter
          (fun g => g.ftype = some 185 ∧ "folder_" ++ g.name = "folder_" ++ f.name) := by
        rw [List.mem_filter]
        exact ⟨hf, by simp [hft]⟩
      have hne' : (folds.filter
          (fun g => g.ftype = some 185 ∧ "folder_" ++ g.name = "folder_" ++ f.name)).isEmpty
            = false := by
        by_contra hcon
        have hemp : (folds.filter
            (fun g => g.ftype = some 185 ∧ "folder_" ++ g.name = "folder_" ++ f.name)).isEmpty
              = true := by
          revert hcon
          cases (folds.filter
            (fun g => g.ftype = some 185 ∧ "folder_" ++ g.name = "folder_" ++ f.name)).isEmpty <;>
            simp
        rw [List.isEmpty_iff.mp hemp] at hmem
        exact absurd hmem (List.not_mem_nil f)
      have hsome := isSome_lookupCount_customCountsAux folds [] ("folder_" ++ f.name)
      rw [hne'] at hsome
      simp only [lookupCount, Option.isSome_none, Bool.false_or, Bool.not_false] at hsome
      obtain ⟨v, hv⟩ := lookupCount_isSome_mem (customCountsOf folds) ("folder_" ++ f.name)
        (by rw [customCountsOf, hsome])
      refine ⟨⟨dropChars ("folder_" ++ f.name) 7, "folder_" ++ f.name⟩, ?_, rfl, ?_⟩
      · rw [registryOf]
        exact List.mem_map.mpr ⟨("folder_" ++ f.name, v), hv, rfl⟩
      · simp only []
        rw [dropChars_folder_key]

def folderA : Folder := ⟨some 185, "A", some 2⟩

def envC8 : Env :=
  ⟨.ok [1], fun _ _ => .ok ⟨[folderA], some 1⟩, fun _ => .ok (some 4), fun _ => .ok []⟩

def cfgC8 : Config := ⟨0, []⟩

def snapC8 : Snapshot := buildSnapshot 4 0 4 0 0 none [("folder_A", 2)]

def outC8 : CycleOutcome := ⟨.ok snapC8, ⟨∅, false, [⟨"A", "folder_A"⟩]⟩⟩

theorem C8_registry_population_witness :
    runCycle envC8 cfgC8 initState 1 = some outC8 ∧
    initState.customFolders = [] ∧
    outC8.result = .ok snapC8 ∧
    fetchAllFoldersForMailboxes envC8 cfgC8 1 = some (.ok [folderA]) ∧
    customCountsOf [folderA] ≠ [] ∧
    outC8.state.customFolders = registryOf (customCountsOf [folderA]) := by
  refine ⟨by decide, rfl, rfl, by decide, by decide, ?_⟩
  exact (((C8_registry_population envC8 cfgC8 initState 1 outC8 [folderA] snapC8 [] initState
    (by decide)).2.1 rfl rfl (by decide)).2 (by decide)).1

/-! ### Claim C9: empty-filter mailbox-list handling -/

def envC9 : Env :=
  ⟨.transportErr "connection refused",
   fun _ _ => .ok ⟨[], some 1⟩,
   fun _ => .ok (some 4),
   fun _ => .ok []⟩

def cfgC9 : Config := ⟨0, []⟩

/-- C9 counterexample: with an empty mailbox filter, a connection-level
failure of the mailbox-list fetch is one way that fetch can fail, and it
makes the whole cycle fail with a connect classification — contradicting
"the cycle does not fail for this reason".  Only a non-2xx response is
downgraded to an empty mailbox list. -/
theorem C9_counterexample :
    cfgC9.mailboxIds = [] ∧
    envC9.mailboxesResp = .transportErr "connection refused" ∧
    (runCycle envC9 cfgC9 initState 1).map cycleError
      = some (some (.connectError "connection refused")) := by
  refine ⟨rfl, rfl, by decide⟩

/-- C9 amended: when the mailbox filter is empty and the mailbox-list fetch
returns a non-2xx response or an empty list, folder fetching yields zero
folders, so the folder aggregates all derive from the empty folder list
(unassigned 0, snoozed 0, no custom counts); this is soft — with the other
fetches succeeding the cycle still succeeds and the other counts remain in
the snapshot.  (A connection-level mailbox-list failure instead fails the
cycle.) -/
theorem C9_soft_empty_mailbox_list
    (env : Env) (cfg : Config) (st : EngineState) (fuel : Nat)
    (hfil : cfg.mailboxIds = [])
    (hmb : (∃ s m, env.mailboxesResp = .httpErr s m) ∨ env.mailboxesResp = .ok []) :
    fetchAllFoldersForMailboxes env cfg fuel = some (.ok []) ∧
    unassignedCountOf [] = 0 ∧ snoozedCountOf [] = 0 ∧ customCountsOf [] = [] ∧
    (∀ oc pc convs my,
      getCountForMailboxes env cfg "active" none = .ok oc →
      getCountForMailboxes env cfg "pending" none = .ok pc →
      fetchMergedConversations env cfg = .ok convs →
      myTicketsStep env cfg = .ok my →
      runCycle env cfg st fuel
        = some ⟨.ok (buildSnapshot oc 0 pc 0 (checkNewUpdate st convs).1.newCount my []),
            commitRegistry (checkNewUpdate st convs).2 []⟩) := by
  have hids : fetchAllMailboxIds env = .ok ([] : List Int) := by
    rcases hmb with ⟨s, m, hmb⟩ | hmb
    · rw [fetchAllMailboxIds, hmb]
    · rw [fetchAllMailboxIds, hmb]
  have hff : fetchAllFoldersForMailboxes env cfg fuel = some (.ok []) := by
    rw [fetchAllFoldersForMailboxes, if_pos (by simp [hfil]), hids]
    rfl
  refine ⟨hff, rfl, rfl, rfl, ?_⟩
  intro oc pc convs my ho hp hn hmy
  exact runCycle_success env cfg st fuel [] oc pc convs my hff ho hp hn hmy

def envC9W : Env :=
  ⟨.httpErr 404 "not found",
   fun _ _ => .ok ⟨[], some 1⟩,
   fun _ => .ok (some 4),
   fun _ => .ok []⟩

theorem C9_soft_empty_mailbox_list_witness :
    cfgC9.mailboxIds = [] ∧
    envC9W.mailboxesResp = .httpErr 404 "not found" ∧
    fetchAllFoldersForMailboxes envC9W cfgC9 1 = some (.ok []) := by
  refine ⟨rfl, rfl, ?_⟩
  exact (C9_soft_empty_mailbox_list envC9W cfgC9 initState 1 rfl
    (Or.inl ⟨404, "not found", rfl⟩)).1

/-! ### Claim C10: snapshot key structure -/

/-- The six fixed metric keys of `const.py`. -/
def fixedSensorKeys : List String :=
  ["open_tickets", "unassigned_tickets", "pending_tickets", "snoozed_tickets",
   "new_tickets", "my_tickets"]

theorem not_folder_form (k : String) (h : k.data.head? ≠ some 'f') :
    ¬ ∃ r, k = "folder_" ++ r := by
  rintro ⟨r, rfl⟩
  apply h
  rw [String.data_append]
  rfl

theorem snapGet_cons_some (p : String × Option Int) (rest : Snapshot) (k : String)
    (v : Option Int) (h : snapGet rest k = some v) : snapGet (p :: rest) k = some v := by
  simp [snapGet, h]

theorem snapGet_cons_none (p : String × Option Int) (rest : Snapshot) (k : String)
    (h : snapGet rest k = none) :
    snapGet (p :: rest) k = if p.1 = k then some p.2 else none := by
  simp [snapGet, h]

theorem snapGet_append_of_none (l1 l2 : Snapshot) (k : String)
    (h : snapGet l2 k = none) : snapGet (l1 ++ l2) k = snapGet l1 k := by
  induction l1 with
  | nil =>
    simp only [List.nil_append, snapGet]
    exact h
  | cons p rest ih =>
    simp only [List.cons_append, snapGet, List.append_eq, ih]

theorem snapGet_customs_none (cc : List (String × Int)) (k : String)
    (hk : ¬ ∃ r, k = "folder_" ++ r) (hcc : ∀ p ∈ cc, ∃ r, p.1 = "folder_" ++ r) :
    snapGet (cc.map (fun p => (p.1, some p.2))) k = none := by
  induction cc with
  | nil => rfl
  | cons p rest ih =>
    rw [List.map_cons,
      snapGet_cons_none _ _ _ (ih (fun q hq => hcc q (List.mem_cons_of_mem _ hq)))]
    rw [if_neg]
    intro hpk
    obtain ⟨r, hr⟩ := hcc p (List.mem_cons_self _ _)
    exact hk ⟨r, by rw [← hpk]; exact hr⟩

theorem lookupFirst_append_left (l1 l2 : Snapshot) (k : String) (v : Option Int)
    (h : lookupFirst l1 k = some v) : lookupFirst (l1 ++ l2) k = some v := by
  induction l1 with
  | nil => simp [lookupFirst] at h
  | cons p rest ih =>
    simp only [lookupFirst, List.cons_append] at h ⊢
    by_cases hp : p.1 = k
    · rwa [if_pos hp] at h ⊢
    · rw [if_neg hp] at h ⊢
      exact ih h

theorem snapGet_buildSnapshot_fixed (oc u pc sc : Int) (nc : Nat) (my : Option Int)
    (cc : List (String × Int)) (hcc : ∀ p ∈ cc, ∃ r, p.1 = "folder_" ++ r) :
    snapGet (buildSnapshot oc u pc sc nc my cc) "open_tickets" = some (some oc) ∧
    snapGet (buildSnapshot oc u pc sc nc my cc) "unassigned_tickets" = some (some u) ∧
    snapGet (buildSnapshot oc u pc sc nc my cc) "pending_tickets" = some (some pc) ∧
    snapGet (buildSnapshot oc u pc sc nc my cc) "snoozed_tickets" = some (some sc) ∧
    snapGet (buildSnapshot oc u pc sc nc my cc) "new_tickets" = some (some (nc : Int)) ∧
    snapGet (buildSnapshot oc u pc sc nc my cc) "my_tickets" = some my ∧
    (∀ k ∈ fixedSensorKeys,
      lookupFirst (buildSnapshot oc u pc sc nc my cc) k
        = snapGet (buildSnapshot oc u pc sc nc my cc) k) := by
  have hnone : ∀ k, ¬ (∃ r, k = "folder_" ++ r) →
      snapGet (cc.map (fun p => (p.1, some p.2))) k = none :=
    fun k hk => snapGet_customs_none cc k hk hcc
  have h1 : snapGet (buildSnapshot oc u pc sc nc my cc) "open_tickets" = some (some oc) := by
    rw [buildSnapshot, snapGet_append_of_none _ _ _ (hnone _ (not_folder_form _ (by decide)))]
    rfl
  have h2 : snapGet (buildSnapshot oc u pc sc nc my cc) "unassigned_tickets" = some (some u) := by
    rw [buildSnapshot, snapGet_append_of_none _ _ _ (hnone _ (not_folder_form _ (by decide)))]
    rfl
  have h3 : snapGet (buildSnapshot oc u pc sc nc my cc) "pending_tickets" = some (some pc) := by
    rw [buildSnapshot, snapGet_append_of_none _ _ _ (hnone _ (not_folder_form _ (by decide)))]
    rfl
  have h4 : snapGet (buildSnapshot oc u pc sc nc my cc) "snoozed_tickets" = some (some sc) := by
    rw [buildSnapshot, snapGet_append_of_none _ _ _ (hnone _ (not_folder_form _ (by decide)))]
    rfl
  have h5 : snapGet (buildSnapshot oc u pc sc nc my cc) "new_tickets" = some (some (nc : Int)) := by
    rw [buildSnapshot, snapGet_append_of_none _ _ _ (hnone _ (not_folder_form _ (by decide)))]
    rfl
  have h6 : snapGet (buildSnapshot oc u pc sc nc my cc) "my_tickets" = some my := by
    rw [buildSnapshot, snapGet_append_of_none _ _ _ (hnone _ (not_folder_form _ (by decide)))]
    rfl
  refine ⟨h1, h2, h3, h4, h5, h6, ?_⟩
  intro k hk
  fin_cases hk
  · rw [h1, buildSnapshot]; exact lookupFirst_append_left _ _ _ _ rfl
  · rw [h2, buildSnapshot]; exact lookupFirst_append_left _ _ _ _ rfl
  · rw [h3, buildSnapshot]; exact lookupFirst_append_left _ _ _ _ rfl
  · rw [h4, buildSnapshot]; exact lookupFirst_append_left _ _ _ _ rfl
  · rw [h5, buildSnapshot]; exact lookupFirst_append_left _ _ _ _ rfl
  · rw [h6, buildSnapshot]; exact lookupFirst_append_left _ _ _ _ rfl

/-- C10: every snapshot returned by a successful cycle binds all six fixed
metric keys; `my_tickets` is bound to null exactly when the agent id is 0 and
to an integer otherwise; every other snapshot entry carries the `folder_`
key prefix, which no fixed key carries; and for each fixed key the
first and last bindings in the snapshot agree, so a custom-folder key never
collides with or overwrites a fixed metric key. -/
theorem C10_snapshot_keys
    (env : Env) (cfg : Config) (st : EngineState) (fuel : Nat) (out : CycleOutcome)
    (snap : Snapshot)
    (h : runCycle env cfg st fuel = some out) (hok : out.result = .ok snap) :
    (∀ k ∈ fixedSensorKeys, (snapGet snap k).isSome = true) ∧
    (cfg.agentId = 0 → snapGet snap "my_tickets" = some none) ∧
    (cfg.agentId ≠ 0 → ∃ n, snapGet snap "my_tickets" = some (some n)) ∧
    (∀ p ∈ snap, p.1 ∈ fixedSensorKeys ∨ ∃ r, p.1 = "folder_" ++ r) ∧
    (∀ k ∈ fixedSensorKeys, ¬ ∃ r, k = "folder_" ++ r) ∧
    (∀ k ∈ fixedSensorKeys, lookupFirst snap k = snapGet snap k) := by
  obtain ⟨folds, oc, pc, convs, my, hfold, hmy, hsnap⟩ :=
    runCycle_ok_inv env cfg st fuel out snap h hok
  have hcc := customCountsOf_keys_form folds
  have hfix := snapGet_buildSnapshot_fixed oc (unassignedCountOf folds) pc
    (snoozedCountOf folds) (checkNewUpdate st convs).1.newCount my (customCountsOf folds) hcc
  subst hsnap
  refine ⟨?_, ?_, ?_, ?_, ?_, hfix.2.2.2.2.2.2⟩
  · intro k hk
    fin_cases hk <;>
      simp [hfix.1, hfix.2.1, hfix.2.2.1, hfix.2.2.2.1, hfix.2.2.2.2.1, hfix.2.2.2.2.2.1]
  · intro hc
    rcases myTicketsStep_ok_shape env cfg my hmy with ⟨_, hmn⟩ | ⟨hcne, _⟩
    · rw [hfix.2.2.2.2.2.1, hmn]
    · exact absurd hc hcne
  · intro hc
    rcases myTicketsStep_ok_shape env cfg my hmy with ⟨hc0, _⟩ | ⟨_, n, hmn⟩
    · exact absurd hc0 hc
    · exact ⟨n, by rw [hfix.2.2.2.2.2.1, hmn]⟩
  · intro p hp
    rw [buildSnapshot] at hp
    rcases List.mem_append.mp hp with hl | hr
    · left
      fin_cases hl <;> simp [fixedSensorKeys]
    · right
      obtain ⟨q, hq, hqe⟩ := List.mem_map.mp hr
      obtain ⟨r, hrr⟩ := hcc q hq
      exact ⟨r, by rw [← hqe]; exact hrr⟩
  · intro k hk
    fin_cases hk <;> exact not_folder_form _ (by decide)

theorem C10_snapshot_keys_witness :
    runCycle envC8 cfgC8 initState 1 = some outC8 ∧
    outC8.result = .ok snapC8 ∧
    cfgC8.agentId = 0 ∧
    snapGet snapC8 "my_tickets" = some none := by
  refine ⟨by decide, rfl, rfl, ?_⟩
  exact (C10_snapshot_keys envC8 cfgC8 initState 1 outC8 snapC8 (by decide) rfl).2.1 rfl

end Freescout
